import Mathlib

/-!
Verification of the seccomp policy pipeline of youki
(crates/libcontainer/src/seccomp/mod.rs).

The pure translators (`translate_arch`, `translate_action`, `translate_op`),
the validator (`check_seccomp`) and the notify predicate (`is_notify`) are
embedded directly.  The stateful compiler/loader (the `ScmpFilterContext`
from libseccomp) is external to the repository; it is modelled as an
abstract `Engine` whose fallible native calls either succeed or fail, and
`init_seccomp` (embedding the source's seccomp initialization routine)
records every native call it performs in an event trace, so that ordering
properties ("before any native object is constructed", "before any
architecture is registered") are statable.
-/

set_option maxHeartbeats 1000000

deriving instance DecidableEq for Except

namespace Seccomp

/-- Portable architecture tokens (`oci_spec::runtime::Arch`), the closed
enumeration matched by `translate_arch`. -/
inductive Arch
| ScmpArchNative
| ScmpArchX86
| ScmpArchX86_64
| ScmpArchX32
| ScmpArchArm
| ScmpArchAarch64
| ScmpArchMips
| ScmpArchMips64
| ScmpArchMips64n32
| ScmpArchMipsel
| ScmpArchMipsel64
| ScmpArchMipsel64n32
| ScmpArchPpc
| ScmpArchPpc64
| ScmpArchPpc64le
| ScmpArchS390
| ScmpArchS390x
deriving DecidableEq, Fintype, Repr

/-- Native architecture identifiers (`libseccomp::ScmpArch`). -/
inductive ScmpArch
| Native
| X86
| X8664
| X32
| Arm
| Aarch64
| Mips
| Mips64
| Mips64N32
| Mipsel
| Mipsel64
| Mipsel64N32
| Ppc
| Ppc64
| Ppc64Le
| S390
| S390X
deriving DecidableEq, Fintype, Repr

/-- Portable seccomp actions (`oci_spec::runtime::LinuxSeccompAction`). -/
inductive LinuxSeccompAction
| ScmpActKill
| ScmpActTrap
| ScmpActErrno
| ScmpActTrace
| ScmpActAllow
| ScmpActKillProcess
| ScmpActNotify
| ScmpActLog
deriving DecidableEq, Fintype, Repr

/-- Native actions (`libseccomp::ScmpAction`).  `Errno` carries an `i32`
error number (modelled as `Int`); `Trace` carries a `u16` trace value
(modelled as `Nat`, always `< 2^16` when produced by `translate_action`). -/
inductive ScmpAction
| KillThread
| Trap
| Errno (errno : Int)
| Trace (value : Nat)
| Allow
| KillProcess
| Notify
| Log
deriving DecidableEq, Repr

/-- Portable comparison operators (`oci_spec::runtime::LinuxSeccompOperator`). -/
inductive LinuxSeccompOperator
| ScmpCmpNe
| ScmpCmpLt
| ScmpCmpLe
| ScmpCmpEq
| ScmpCmpGe
| ScmpCmpGt
| ScmpCmpMaskedEq
deriving DecidableEq, Fintype, Repr

/-- Native comparison operators (`libseccomp::ScmpCompareOp`);
`MaskedEqual` carries the `u64` mask (modelled as `Nat`). -/
inductive ScmpCompareOp
| NotEqual
| Less
| LessOrEqual
| Equal
| GreaterEqual
| Greater
| MaskedEqual (mask : Nat)
deriving DecidableEq, Repr

/-- One argument condition of a syscall rule
(`oci_spec::runtime::LinuxSeccompArg`): argument index (`usize`),
operator, primary value (`u64`) and optional secondary value (`u64`). -/
structure LinuxSeccompArg where
  index : Nat
  op : LinuxSeccompOperator
  value : Nat
  value_two : Option Nat
deriving DecidableEq, Repr

/-- One syscall rule (`oci_spec::runtime::LinuxSyscall`): syscall names,
action, optional errno/trace parameter (`u32`), optional argument
conditions. -/
structure LinuxSyscall where
  names : List String
  action : LinuxSeccompAction
  errno_ret : Option Nat
  args : Option (List LinuxSeccompArg)
deriving DecidableEq, Repr

/-- The top-level policy (`oci_spec::runtime::LinuxSeccomp`). -/
structure LinuxSeccomp where
  default_action : LinuxSeccompAction
  default_errno_ret : Option Nat
  architectures : Option (List Arch)
  flags : Option (List String)
  syscalls : Option (List LinuxSyscall)
deriving DecidableEq, Repr

/-- Errors of the pipeline (the `anyhow` failure cases of the source,
given distinguishable tags). -/
inductive SeccompError
| notifyDefault
| notifyWrite
| traceValue
| newFilterFail
| ctlFail
| unsupportedFlag (flag : String)
| addArchFail
| addRuleFail
| loadFail
| notifyFdFail
deriving DecidableEq, Repr

/-- `translate_arch` (source lines 16-36): total map from the portable
architecture enumeration to native identifiers. -/
def translate_arch (arch : Arch) : ScmpArch :=
  match arch with
  | .ScmpArchNative => .Native
  | .ScmpArchX86 => .X86
  | .ScmpArchX86_64 => .X8664
  | .ScmpArchX32 => .X32
  | .ScmpArchArm => .Arm
  | .ScmpArchAarch64 => .Aarch64
  | .ScmpArchMips => .Mips
  | .ScmpArchMips64 => .Mips64
  | .ScmpArchMips64n32 => .Mips64N32
  | .ScmpArchMipsel => .Mipsel
  | .ScmpArchMipsel64 => .Mipsel64
  | .ScmpArchMipsel64n32 => .Mipsel64N32
  | .ScmpArchPpc => .Ppc
  | .ScmpArchPpc64 => .Ppc64
  | .ScmpArchPpc64le => .Ppc64Le
  | .ScmpArchS390 => .S390
  | .ScmpArchS390x => .S390X

/-- The Rust cast `e as i32` on a `u32` value: two's-complement
reinterpretation of the low 32 bits. -/
def to_i32 (v : Nat) : Int :=
  if v % 2 ^ 32 < 2 ^ 31 then (v % 2 ^ 32 : Nat) else (v % 2 ^ 32 : Nat) - 2 ^ 32

/-- `errno.map(|e| e as i32).unwrap_or(libc::EPERM)` (source line 39);
`libc::EPERM = 1`. -/
def errno_or_eperm (errno : Option Nat) : Int :=
  match errno with
  | some v => to_i32 v
  | none => 1

/-- `translate_action` (source lines 38-52).  `ScmpAction::Trace` holds a
`u16`, so the `errno.try_into()?` conversion from `i32` fails exactly when
the value is negative or `≥ 2^16`. -/
def translate_action (action : LinuxSeccompAction) (errno : Option Nat) :
    Except SeccompError ScmpAction :=
  let e := errno_or_eperm errno
  match action with
  | .ScmpActKill => .ok .KillThread
  | .ScmpActTrap => .ok .Trap
  | .ScmpActErrno => .ok (.Errno e)
  | .ScmpActTrace =>
      if 0 ≤ e ∧ e < 65536 then .ok (.Trace e.toNat) else .error .traceValue
  | .ScmpActAllow => .ok .Allow
  | .ScmpActKillProcess => .ok .KillProcess
  | .ScmpActNotify => .ok .Notify
  | .ScmpActLog => .ok .Log

/-- `translate_op` (source lines 54-64). -/
def translate_op (op : LinuxSeccompOperator) (datum_b : Option Nat) : ScmpCompareOp :=
  match op with
  | .ScmpCmpNe => .NotEqual
  | .ScmpCmpLt => .Less
  | .ScmpCmpLe => .LessOrEqual
  | .ScmpCmpEq => .Equal
  | .ScmpCmpGe => .GreaterEqual
  | .ScmpCmpGt => .Greater
  | .ScmpCmpMaskedEq => .MaskedEqual (datum_b.getD 0)

/-- Inner loop of `check_seccomp` (source lines 81-91): scan the rules for
a notify-action rule naming `write`. -/
def check_notify_write : List LinuxSyscall → Except SeccompError Unit
  | [] => .ok ()
  | syscall :: rest =>
      if syscall.action = LinuxSeccompAction.ScmpActNotify ∧ "write" ∈ syscall.names then
        .error .notifyWrite
      else
        check_notify_write rest

/-- `check_seccomp` (source lines 66-94): notify must not be the default
action, and no notify rule may name the `write` syscall. -/
def check_seccomp (seccomp : LinuxSeccomp) : Except SeccompError Unit :=
  if seccomp.default_action = LinuxSeccompAction.ScmpActNotify then
    .error .notifyDefault
  else
    check_notify_write (seccomp.syscalls.getD [])

/-- `is_notify` (source lines 225-231). -/
def is_notify (seccomp : LinuxSeccomp) : Bool :=
  (seccomp.syscalls.getD []).any fun syscall =>
    syscall.action = LinuxSeccompAction.ScmpActNotify

/-- `SECCOMP_FILTER_FLAG_LOG` (source line 99). -/
def SECCOMP_FILTER_FLAG_LOG : String := "SECCOMP_FILTER_FLAG_LOG"

/-- `SECCOMP_FILTER_FLAG_TSYNC` (source line 110). -/
def SECCOMP_FILTER_FLAG_TSYNC : String := "SECCOMP_FILTER_FLAG_TSYNC"

/-- `SECCOMP_FILTER_FLAG_SPEC_ALLOW` (source line 113). -/
def SECCOMP_FILTER_FLAG_SPEC_ALLOW : String := "SECCOMP_FILTER_FLAG_SPEC_ALLOW"

/-- A native single-argument comparison (`libseccomp::ScmpArgCompare`):
argument number (`u32`), operator, datum (`u64`). -/
structure ScmpArgCompare where
  arg : Nat
  op : ScmpCompareOp
  datum : Nat
deriving DecidableEq, Repr

/-- `ScmpArgCompare::new(arg.index() as u32, translate_op(arg.op(),
arg.value_two()), arg.value())` (source lines 183-187); the `usize → u32`
cast keeps the low 32 bits. -/
def translate_cmp (arg : LinuxSeccompArg) : ScmpArgCompare :=
  { arg := arg.index % 2 ^ 32
    op := translate_op arg.op arg.value_two
    datum := arg.value }

/-- Abstract model of the external libseccomp engine (`ScmpFilterContext`
and `ScmpSyscall`): each fallible native call is given an outcome, and
`from_name` gives the kernel's resolution of syscall names to native
syscall numbers. -/
structure Engine where
  new_filter : ScmpAction → Bool
  set_ctl_log : Bool
  set_ctl_tsync : Bool
  set_ctl_ssb : Bool
  set_ctl_nnp : Bool
  add_arch : ScmpArch → Bool
  from_name : String → Option Int
  add_rule_conditional : ScmpAction → Int → List ScmpArgCompare → Bool
  add_rule : ScmpAction → Int → Bool
  filter_load : Bool
  get_notify_fd : Option Int

/-- One native call performed on the engine.  `addRuleCond` records the
full comparison list handed to `add_rule_conditional`, so that "one native
rule per condition" is observable. -/
inductive Event
| newFilter (action : ScmpAction)
| setLog
| setTsync
| setSsb
| setNnp
| addArch (arch : ScmpArch)
| addRuleCond (action : ScmpAction) (syscall : Int) (cmps : List ScmpArgCompare)
| addRule (action : ScmpAction) (syscall : Int)
| filterLoad
| getNotifyFd
deriving DecidableEq, Repr

/-- Flag-configuration loop of the source (lines 124-133): each recognized
flag enables the matching control, an unrecognized flag fails naming the
token.  Returns the native calls performed and the outcome. -/
def configure_flags (eng : Engine) : List String → List Event × Except SeccompError Unit
  | [] => ([], .ok ())
  | flag :: rest =>
      if flag = SECCOMP_FILTER_FLAG_LOG then
        if eng.set_ctl_log then
          (Event.setLog :: (configure_flags eng rest).1, (configure_flags eng rest).2)
        else ([], .error .ctlFail)
      else if flag = SECCOMP_FILTER_FLAG_TSYNC then
        if eng.set_ctl_tsync then
          (Event.setTsync :: (configure_flags eng rest).1, (configure_flags eng rest).2)
        else ([], .error .ctlFail)
      else if flag = SECCOMP_FILTER_FLAG_SPEC_ALLOW then
        if eng.set_ctl_ssb then
          (Event.setSsb :: (configure_flags eng rest).1, (configure_flags eng rest).2)
        else ([], .error .ctlFail)
      else ([], .error (.unsupportedFlag flag))

/-- Architecture-registration loop of the source (lines 135-140): a
registration failure is fatal. -/
def add_architectures (eng : Engine) : List Arch → List Event × Except SeccompError Unit
  | [] => ([], .ok ())
  | arch :: rest =>
      if eng.add_arch (translate_arch arch) then
        (Event.addArch (translate_arch arch) :: (add_architectures eng rest).1,
         (add_architectures eng rest).2)
      else ([], .error .addArchFail)

/-- Per-condition loop of the source (lines 181-195): one
`add_rule_conditional` call per condition, each with a singleton
comparison slice; a rejected addition is fatal. -/
def compile_args (eng : Engine) (action : ScmpAction) (sc : Int) :
    List LinuxSeccompArg → List Event × Except SeccompError Unit
  | [] => ([], .ok ())
  | arg :: rest =>
      if eng.add_rule_conditional action sc [translate_cmp arg] then
        (Event.addRuleCond action sc [translate_cmp arg] :: (compile_args eng action sc rest).1,
         (compile_args eng action sc rest).2)
      else ([], .error .addRuleFail)

/-- Per-name loop of the source (lines 164-203): a name the kernel cannot
resolve is skipped (non-fatal) and the remaining names continue; a
resolved name adds one rule per condition, or one unconditional rule when
the rule has no condition list. -/
def compile_names (eng : Engine) (action : ScmpAction)
    (args : Option (List LinuxSeccompArg)) :
    List String → List Event × Except SeccompError Unit
  | [] => ([], .ok ())
  | name :: rest =>
      match eng.from_name name with
      | none => compile_names eng action args rest
      | some sc =>
          match args with
          | some condList =>
              match (compile_args eng action sc condList).2 with
              | .ok _ =>
                  ((compile_args eng action sc condList).1 ++
                     (compile_names eng action args rest).1,
                   (compile_names eng action args rest).2)
              | .error e => ((compile_args eng action sc condList).1, .error e)
          | none =>
              if eng.add_rule action sc then
                (Event.addRule action sc :: (compile_names eng action args rest).1,
                 (compile_names eng action args rest).2)
              else ([], .error .addRuleFail)

/-- Per-rule loop of the source (lines 151-204): translate the rule's
action (fatal on failure); skip the whole rule when it equals the default
action (non-fatal); otherwise compile each of its names. -/
def compile_syscalls (eng : Engine) (default_action : ScmpAction) :
    List LinuxSyscall → List Event × Except SeccompError Unit
  | [] => ([], .ok ())
  | syscall :: rest =>
      match translate_action syscall.action syscall.errno_ret with
      | .error e => ([], .error e)
      | .ok action =>
          if action = default_action then
            compile_syscalls eng default_action rest
          else
            match (compile_names eng action syscall.args syscall.names).2 with
            | .ok _ =>
                ((compile_names eng action syscall.args syscall.names).1 ++
                   (compile_syscalls eng default_action rest).1,
                 (compile_syscalls eng default_action rest).2)
            | .error e =>
                ((compile_names eng action syscall.args syscall.names).1, .error e)

/-- Embedding of `initialize_seccomp` (source lines 115-223): validate,
create the filter with the translated default action, configure flags,
register architectures, unset the automatic no-new-privileges control,
compile the rules, load, and fetch the notify fd when the policy uses
notify.  Returns the trace of native calls together with the outcome. -/
def init_seccomp (eng : Engine) (seccomp : LinuxSeccomp) :
    List Event × Except SeccompError (Option Int) :=
  match check_seccomp seccomp with
  | .error e => ([], .error e)
  | .ok _ =>
  match translate_action seccomp.default_action seccomp.default_errno_ret with
  | .error e => ([], .error e)
  | .ok default_action =>
  if eng.new_filter default_action then
    match (configure_flags eng (seccomp.flags.getD [])).2 with
    | .error e =>
        (Event.newFilter default_action :: (configure_flags eng (seccomp.flags.getD [])).1,
         .error e)
    | .ok _ =>
    match (add_architectures eng (seccomp.architectures.getD [])).2 with
    | .error e =>
        (Event.newFilter default_action :: ((configure_flags eng (seccomp.flags.getD [])).1 ++
           (add_architectures eng (seccomp.architectures.getD [])).1),
         .error e)
    | .ok _ =>
    if eng.set_ctl_nnp then
      match (compile_syscalls eng default_action (seccomp.syscalls.getD [])).2 with
      | .error e =>
          (Event.newFilter default_action :: ((configure_flags eng (seccomp.flags.getD [])).1 ++
             (add_architectures eng (seccomp.architectures.getD [])).1 ++ [Event.setNnp] ++
             (compile_syscalls eng default_action (seccomp.syscalls.getD [])).1),
           .error e)
      | .ok _ =>
      if eng.filter_load then
        if is_notify seccomp then
          match eng.get_notify_fd with
          | some fd =>
              (Event.newFilter default_action ::
                 ((configure_flags eng (seccomp.flags.getD [])).1 ++
                  (add_architectures eng (seccomp.architectures.getD [])).1 ++ [Event.setNnp] ++
                  (compile_syscalls eng default_action (seccomp.syscalls.getD [])).1 ++
                  [Event.filterLoad, Event.getNotifyFd]),
               .ok (some fd))
          | none =>
              (Event.newFilter default_action ::
                 ((configure_flags eng (seccomp.flags.getD [])).1 ++
                  (add_architectures eng (seccomp.architectures.getD [])).1 ++ [Event.setNnp] ++
                  (compile_syscalls eng default_action (seccomp.syscalls.getD [])).1 ++
                  [Event.filterLoad]),
               .error .notifyFdFail)
        else
          (Event.newFilter default_action ::
             ((configure_flags eng (seccomp.flags.getD [])).1 ++
              (add_architectures eng (seccomp.architectures.getD [])).1 ++ [Event.setNnp] ++
              (compile_syscalls eng default_action (seccomp.syscalls.getD [])).1 ++
              [Event.filterLoad]),
           .ok none)
      else
        (Event.newFilter default_action :: ((configure_flags eng (seccomp.flags.getD [])).1 ++
           (add_architectures eng (seccomp.architectures.getD [])).1 ++ [Event.setNnp] ++
           (compile_syscalls eng default_action (seccomp.syscalls.getD [])).1),
         .error .loadFail)
    else
      (Event.newFilter default_action :: ((configure_flags eng (seccomp.flags.getD [])).1 ++
         (add_architectures eng (seccomp.architectures.getD [])).1),
       .error .ctlFail)
  else ([], .error .newFilterFail)

/-- A control-flag token the source recognizes (the three `match` arms at
lines 126-129). -/
def recognized_flag (flag : String) : Prop :=
  flag = SECCOMP_FILTER_FLAG_LOG ∨ flag = SECCOMP_FILTER_FLAG_TSYNC ∨
    flag = SECCOMP_FILTER_FLAG_SPEC_ALLOW

instance (flag : String) : Decidable (recognized_flag flag) := by
  unfold recognized_flag
  infer_instance

/-- A concrete engine on which every native call succeeds and only
`getcwd` resolves; used to evaluate the theorems on closed inputs. -/
def engW : Engine :=
  { new_filter := fun _ => true
    set_ctl_log := true
    set_ctl_tsync := true
    set_ctl_ssb := true
    set_ctl_nnp := true
    add_arch := fun _ => true
    from_name := fun name => if name = "getcwd" then some 79 else none
    add_rule_conditional := fun _ _ _ => true
    add_rule := fun _ _ => true
    filter_load := true
    get_notify_fd := some 3 }

/-- Is this event one of the three control-flag calls? -/
def Event.isCtl : Event → Bool
  | .setLog => true
  | .setTsync => true
  | .setSsb => true
  | _ => false

/-- Is this event an architecture registration? -/
def Event.isAddArch : Event → Bool
  | .addArch _ => true
  | _ => false

/-- Is this event a native rule addition (conditional or not)? -/
def Event.isRuleAdd : Event → Bool
  | .addRuleCond _ _ _ => true
  | .addRule _ _ => true
  | _ => false

/-- A policy whose default action is notify (rejected by the validator). -/
def polBadDefault : LinuxSeccomp :=
  { default_action := .ScmpActNotify
    default_errno_ret := none
    architectures := none
    flags := none
    syscalls := none }

/-- A policy with one notify-action rule on `getcwd`. -/
def polNotify : LinuxSeccomp :=
  { default_action := .ScmpActAllow
    default_errno_ret := none
    architectures := some [.ScmpArchNative]
    flags := none
    syscalls := some [{ names := ["getcwd"]
                        action := .ScmpActNotify
                        errno_ret := none
                        args := none }] }

/-- A policy whose flag list holds an unrecognized token. -/
def polBadFlag : LinuxSeccomp :=
  { default_action := .ScmpActAllow
    default_errno_ret := none
    architectures := none
    flags := some ["SECCOMP_FILTER_FLAG_BOGUS"]
    syscalls := none }

/-- A rule whose action coincides with an allow default action. -/
def ruleAllowDup : LinuxSyscall :=
  { names := ["getcwd"]
    action := .ScmpActAllow
    errno_ret := none
    args := none }

/-- Two concrete argument conditions. -/
def argListW : List LinuxSeccompArg :=
  [{ index := 0, op := .ScmpCmpEq, value := 5, value_two := none },
   { index := 1, op := .ScmpCmpMaskedEq, value := 7, value_two := some 255 }]

theorem check_notify_write_ok_iff (l : List LinuxSyscall) :
    check_notify_write l = Except.ok () ↔
      ∀ syscall ∈ l, syscall.action = LinuxSeccompAction.ScmpActNotify →
        "write" ∉ syscall.names := by
  induction l with
  | nil => simp [check_notify_write]
  | cons syscall rest ih =>
    simp only [check_notify_write]
    split_ifs with h
    · constructor
      · intro he
        exact he.elim
      · intro hall
        exact absurd h.2 (hall syscall (List.mem_cons_self _ _) h.1)
    · rw [ih]
      constructor
      · intro hrest sy hmem hact
        rcases List.mem_cons.mp hmem with heq | hmem2
        · subst heq
          intro hw
          exact h ⟨hact, hw⟩
        · exact hrest sy hmem2 hact
      · intro hall sy hmem hact
        exact hall sy (List.mem_cons_of_mem _ hmem) hact

theorem configure_flags_events (eng : Engine) (fs : List String) :
    ∀ ev ∈ (configure_flags eng fs).1, ev.isCtl = true := by
  induction fs with
  | nil => intro ev hev; simp [configure_flags] at hev
  | cons flag rest ih =>
    intro ev hev
    simp only [configure_flags] at hev
    split_ifs at hev <;> simp at hev
    · rcases hev with rfl | hm
      · rfl
      · exact ih ev hm
    · rcases hev with rfl | hm
      · rfl
      · exact ih ev hm
    · rcases hev with rfl | hm
      · rfl
      · exact ih ev hm

theorem add_architectures_events (eng : Engine) (archs : List Arch) :
    ∀ ev ∈ (add_architectures eng archs).1, ev.isAddArch = true := by
  induction archs with
  | nil => intro ev hev; simp [add_architectures] at hev
  | cons arch rest ih =>
    intro ev hev
    simp only [add_architectures] at hev
    split_ifs at hev <;> simp at hev
    rcases hev with rfl | hm
    · rfl
    · exact ih ev hm

theorem compile_args_events (eng : Engine) (action : ScmpAction) (sc : Int)
    (condList : List LinuxSeccompArg) :
    ∀ ev ∈ (compile_args eng action sc condList).1, ev.isRuleAdd = true := by
  induction condList with
  | nil => intro ev hev; simp [compile_args] at hev
  | cons arg rest ih =>
    intro ev hev
    simp only [compile_args] at hev
    split_ifs at hev <;> simp at hev
    rcases hev with rfl | hm
    · rfl
    · exact ih ev hm

theorem compile_names_events (eng : Engine) (action : ScmpAction)
    (args : Option (List LinuxSeccompArg)) (names : List String) :
    ∀ ev ∈ (compile_names eng action args names).1, ev.isRuleAdd = true := by
  induction names with
  | nil => intro ev hev; simp [compile_names] at hev
  | cons name rest ih =>
    intro ev hev
    simp only [compile_names] at hev
    rcases hn : eng.from_name name with _ | sc
    · rw [hn] at hev
      exact ih ev hev
    · rw [hn] at hev
      cases args with
      | none =>
        simp only at hev
        split_ifs at hev <;> simp at hev
        rcases hev with rfl | hm
        · rfl
        · exact ih ev hm
      | some condList =>
        simp only at hev
        rcases hc : (compile_args eng action sc condList).2 with e | u
        · rw [hc] at hev
          simp at hev
          exact compile_args_events eng action sc condList ev hev
        · rw [hc] at hev
          simp at hev
          rcases hev with hm | hm
          · exact compile_args_events eng action sc condList ev hm
          · exact ih ev hm

theorem compile_syscalls_events (eng : Engine) (default_action : ScmpAction)
    (l : List LinuxSyscall) :
    ∀ ev ∈ (compile_syscalls eng default_action l).1, ev.isRuleAdd = true := by
  induction l with
  | nil => intro ev hev; simp [compile_syscalls] at hev
  | cons syscall rest ih =>
    intro ev hev
    simp only [compile_syscalls] at hev
    rcases ht : translate_action syscall.action syscall.errno_ret with e | action
    · rw [ht] at hev
      simp at hev
    · rw [ht] at hev
      simp only at hev
      split_ifs at hev with hda
      · exact ih ev hev
      · rcases hc : (compile_names eng action syscall.args syscall.names).2 with e | u
        · rw [hc] at hev
          simp at hev
          exact compile_names_events eng action syscall.args syscall.names ev hev
        · rw [hc] at hev
          simp at hev
          rcases hev with hm | hm
          · exact compile_names_events eng action syscall.args syscall.names ev hm
          · exact ih ev hm

theorem configure_flags_error_of_unknown (eng : Engine) (fs : List String) (flag : String)
    (hmem : flag ∈ fs) (hunk : ¬ recognized_flag flag) :
    ∃ e, (configure_flags eng fs).2 = Except.error e := by
  revert hmem
  induction fs with
  | nil => intro hmem; exact absurd hmem (List.not_mem_nil flag)
  | cons f rest ih =>
    intro hmem
    rcases List.mem_cons.mp hmem with heq | hmem2
    · subst heq
      unfold recognized_flag at hunk
      push_neg at hunk
      simp [configure_flags, hunk.1, hunk.2.1, hunk.2.2]
    · simp only [configure_flags]
      split_ifs <;> first
        | exact ⟨_, rfl⟩
        | simpa using ih hmem2

theorem configure_flags_names_offender (eng : Engine)
    (hlog : eng.set_ctl_log = true) (htsync : eng.set_ctl_tsync = true)
    (hssb : eng.set_ctl_ssb = true) (fs : List String) (flag : String)
    (hmem : flag ∈ fs) (hunk : ¬ recognized_flag flag) :
    ∃ f2, f2 ∈ fs ∧ ¬ recognized_flag f2 ∧
      (configure_flags eng fs).2 = Except.error (SeccompError.unsupportedFlag f2) := by
  revert hmem
  induction fs with
  | nil => intro hmem; exact absurd hmem (List.not_mem_nil flag)
  | cons f rest ih =>
    intro hmem
    by_cases hf : recognized_flag f
    · have hfr : flag ∈ rest := by
        rcases List.mem_cons.mp hmem with heq | h2
        · subst heq; exact absurd hf hunk
        · exact h2
      obtain ⟨f2, hf2mem, hf2unk, heq⟩ := ih hfr
      refine ⟨f2, List.mem_cons_of_mem _ hf2mem, hf2unk, ?_⟩
      rcases hf with h | h | h <;> subst h <;>
        simp [configure_flags, hlog, htsync, hssb, heq,
          SECCOMP_FILTER_FLAG_LOG, SECCOMP_FILTER_FLAG_TSYNC, SECCOMP_FILTER_FLAG_SPEC_ALLOW]
    · refine ⟨f, List.mem_cons_self _ _, hf, ?_⟩
      unfold recognized_flag at hf
      push_neg at hf
      simp [configure_flags, hf.1, hf.2.1, hf.2.2]

/-- Claim C6: `translate_action` fails only for the trace action; every
other action succeeds for every parameter value, the error-return action
defaults its error code to `EPERM` (1) when the parameter is absent, and
the portable-to-native action mapping is allow → allow, kill →
kill-thread, kill-process → kill-whole-process, trap → trap, log → log,
errno → error-return, trace → trace, notify → notify. -/
theorem translate_action_mapping :
    (∀ action errno e, translate_action action errno = Except.error e →
      action = LinuxSeccompAction.ScmpActTrace) ∧
    (∀ errno, translate_action LinuxSeccompAction.ScmpActAllow errno =
      Except.ok ScmpAction.Allow) ∧
    (∀ errno, translate_action LinuxSeccompAction.ScmpActKill errno =
      Except.ok ScmpAction.KillThread) ∧
    (∀ errno, translate_action LinuxSeccompAction.ScmpActKillProcess errno =
      Except.ok ScmpAction.KillProcess) ∧
    (∀ errno, translate_action LinuxSeccompAction.ScmpActTrap errno =
      Except.ok ScmpAction.Trap) ∧
    (∀ errno, translate_action LinuxSeccompAction.ScmpActLog errno =
      Except.ok ScmpAction.Log) ∧
    (∀ errno, translate_action LinuxSeccompAction.ScmpActNotify errno =
      Except.ok ScmpAction.Notify) ∧
    (∀ errno, translate_action LinuxSeccompAction.ScmpActErrno errno =
      Except.ok (ScmpAction.Errno (errno_or_eperm errno))) ∧
    (translate_action LinuxSeccompAction.ScmpActErrno none =
      Except.ok (ScmpAction.Errno 1)) ∧
    (∀ errno, 0 ≤ errno_or_eperm errno → errno_or_eperm errno < 65536 →
      translate_action LinuxSeccompAction.ScmpActTrace errno =
        Except.ok (ScmpAction.Trace (errno_or_eperm errno).toNat)) ∧
    (∀ errno, (∃ e, translate_action LinuxSeccompAction.ScmpActTrace errno =
        Except.error e) ↔
      ¬ (0 ≤ errno_or_eperm errno ∧ errno_or_eperm errno < 65536)) := by
  refine ⟨?_, fun _ => rfl, fun _ => rfl, fun _ => rfl, fun _ => rfl, fun _ => rfl,
    fun _ => rfl, fun _ => rfl, rfl, ?_, ?_⟩
  · intro action errno e h
    cases action <;> simp_all [translate_action]
  · intro errno h1 h2
    simp only [translate_action]
    rw [if_pos ⟨h1, h2⟩]
  · intro errno
    simp only [translate_action]
    split_ifs with h
    · simp [h]
    · simp [h]

/-- Claim C7: `translate_arch` is a total function on the closed
architecture enumeration (it is defined by an exhaustive match, hence
total by construction) and it is injective: distinct portable tokens map
to distinct native identifiers. -/
theorem translate_arch_injective :
    ∀ a b : Arch, a ≠ b → translate_arch a ≠ translate_arch b := by
  decide

theorem translate_arch_injective_w :
    translate_arch Arch.ScmpArchX86 ≠ translate_arch Arch.ScmpArchX86_64 :=
  translate_arch_injective Arch.ScmpArchX86 Arch.ScmpArchX86_64 (by decide)

/-- Claim C8: `translate_op` is total; the six plain comparison operators
map one-to-one to their native counterparts with a result independent of
the secondary operand, and masked-equal maps to the native masked
equality carrying the secondary operand as the mask, defaulting to zero
when absent. -/
theorem translate_op_mapping :
    (∀ datum_b, translate_op LinuxSeccompOperator.ScmpCmpNe datum_b =
      ScmpCompareOp.NotEqual) ∧
    (∀ datum_b, translate_op LinuxSeccompOperator.ScmpCmpLt datum_b =
      ScmpCompareOp.Less) ∧
    (∀ datum_b, translate_op LinuxSeccompOperator.ScmpCmpLe datum_b =
      ScmpCompareOp.LessOrEqual) ∧
    (∀ datum_b, translate_op LinuxSeccompOperator.ScmpCmpEq datum_b =
      ScmpCompareOp.Equal) ∧
    (∀ datum_b, translate_op LinuxSeccompOperator.ScmpCmpGe datum_b =
      ScmpCompareOp.GreaterEqual) ∧
    (∀ datum_b, translate_op LinuxSeccompOperator.ScmpCmpGt datum_b =
      ScmpCompareOp.Greater) ∧
    (∀ op1 op2 d1 d2, op1 ≠ LinuxSeccompOperator.ScmpCmpMaskedEq →
      op2 ≠ LinuxSeccompOperator.ScmpCmpMaskedEq →
      translate_op op1 d1 = translate_op op2 d2 → op1 = op2) ∧
    (∀ mask, translate_op LinuxSeccompOperator.ScmpCmpMaskedEq (some mask) =
      ScmpCompareOp.MaskedEqual mask) ∧
    translate_op LinuxSeccompOperator.ScmpCmpMaskedEq none =
      ScmpCompareOp.MaskedEqual 0 := by
  refine ⟨fun _ => rfl, fun _ => rfl, fun _ => rfl, fun _ => rfl, fun _ => rfl,
    fun _ => rfl, ?_, fun _ => rfl, rfl⟩
  intro op1 op2 d1 d2 h1 h2 heq
  cases op1 <;> cases op2 <;> simp_all [translate_op]

/-- Claim C10: the numeric action parameter is reinterpreted from `u32`
to `i32` two's-complement-wise rather than range-checked: any value above
`2^31 - 1` yields the corresponding negative error number for the
error-return action (e.g. 4294967295 yields -1), and makes the trace
translation fail since the negative result is not representable as the
native `u16` trace value. -/
theorem errno_cast_wraps :
    (∀ v : Nat, 2 ^ 31 - 1 < v → v < 2 ^ 32 →
      translate_action LinuxSeccompAction.ScmpActErrno (some v) =
        Except.ok (ScmpAction.Errno ((v : Int) - 2 ^ 32)) ∧
      translate_action LinuxSeccompAction.ScmpActTrace (some v) =
        Except.error SeccompError.traceValue) ∧
    translate_action LinuxSeccompAction.ScmpActErrno (some 4294967295) =
      Except.ok (ScmpAction.Errno (-1)) := by
  constructor
  · intro v h1 h2
    have hmod : v % 2 ^ 32 = v := Nat.mod_eq_of_lt h2
    have hcast : to_i32 v = (v : Int) - 2 ^ 32 := by
      unfold to_i32
      rw [hmod, if_neg (by omega)]
    constructor
    · simp [translate_action, errno_or_eperm, hcast]
    · simp only [translate_action, errno_or_eperm, hcast]
      rw [if_neg (by omega)]
  · decide

/-- Claim C3: a rule whose translated action equals the translated default
action is skipped entirely — compiling the rule list with the rule at its
head is the same as compiling the remaining rules, so no native rule
addition happens for any of its names and compilation continues
non-fatally. -/
theorem redundant_rule_skipped (eng : Engine) (default_action : ScmpAction)
    (syscall : LinuxSyscall) (rest : List LinuxSyscall)
    (h : translate_action syscall.action syscall.errno_ret = Except.ok default_action) :
    compile_syscalls eng default_action (syscall :: rest) =
      compile_syscalls eng default_action rest := by
  simp [compile_syscalls, h]

theorem redundant_rule_skipped_w :
    compile_syscalls engW ScmpAction.Allow [ruleAllowDup] =
      compile_syscalls engW ScmpAction.Allow [] :=
  redundant_rule_skipped engW ScmpAction.Allow ruleAllowDup [] (by decide)

/-- Claim C4: a syscall name the kernel cannot resolve is skipped on its
own — compiling a name list with an unresolvable name at its head is the
same as compiling the remaining names of the rule, so the skip is
non-fatal and the sibling names are still processed; by contrast a
resolved name whose native addition is rejected aborts with a fatal
error, so unresolved names are not silently conflated with other
failures. -/
theorem unresolved_name_skipped (eng : Engine) (action : ScmpAction)
    (args : Option (List LinuxSeccompArg)) (name : String) (rest : List String) :
    (eng.from_name name = none →
      compile_names eng action args (name :: rest) =
        compile_names eng action args rest) ∧
    (∀ sc, eng.from_name name = some sc → args = none →
      eng.add_rule action sc = false →
      compile_names eng action args (name :: rest) =
        ([], Except.error SeccompError.addRuleFail)) := by
  constructor
  · intro h
    simp [compile_names, h]
  · intro sc hsc hargs hadd
    subst hargs
    simp [compile_names, hsc, hadd]

theorem unresolved_name_skipped_w :
    compile_names engW ScmpAction.KillThread none ["not_a_syscall", "getcwd"] =
      compile_names engW ScmpAction.KillThread none ["getcwd"] :=
  (unresolved_name_skipped engW ScmpAction.KillThread none "not_a_syscall"
    ["getcwd"]).1 (by decide)

theorem compile_args_all_ok (eng : Engine) (action : ScmpAction) (sc : Int)
    (hok : ∀ cmps, eng.add_rule_conditional action sc cmps = true)
    (condList : List LinuxSeccompArg) :
    compile_args eng action sc condList =
      (condList.map fun arg => Event.addRuleCond action sc [translate_cmp arg],
       Except.ok ()) := by
  induction condList with
  | nil => simp [compile_args]
  | cons arg rest ih => simp [compile_args, hok, ih]

/-- Claim C5: for a successfully resolved syscall name, a rule carrying a
list of N argument conditions makes exactly N native rule additions, each
passing a singleton comparison list together with the same (action,
syscall) pair; a rule with no condition list makes exactly one
unconditional addition. -/
theorem conditions_add_separately (eng : Engine) (action : ScmpAction) (sc : Int)
    (name : String) (condList : List LinuxSeccompArg)
    (hname : eng.from_name name = some sc)
    (hok : ∀ cmps, eng.add_rule_conditional action sc cmps = true) :
    compile_names eng action (some condList) [name] =
      (condList.map fun arg => Event.addRuleCond action sc [translate_cmp arg],
       Except.ok ()) ∧
    (eng.add_rule action sc = true →
      compile_names eng action none [name] =
        ([Event.addRule action sc], Except.ok ())) := by
  constructor
  · simp [compile_names, hname, compile_args_all_ok eng action sc hok condList]
  · intro hadd
    simp [compile_names, hname, hadd]

theorem conditions_add_separately_w :
    compile_names engW ScmpAction.KillThread (some argListW) ["getcwd"] =
      (argListW.map fun arg => Event.addRuleCond ScmpAction.KillThread 79 [translate_cmp arg],
       Except.ok ()) ∧
    (engW.add_rule ScmpAction.KillThread 79 = true →
      compile_names engW ScmpAction.KillThread none ["getcwd"] =
        ([Event.addRule ScmpAction.KillThread 79], Except.ok ())) :=
  conditions_add_separately engW ScmpAction.KillThread 79 "getcwd" argListW (by decide)
    (fun _ => rfl)

/-- Claim C1: the validator accepts a policy exactly when its default
action is not notify and no notify-action rule has `write` among its
syscall names; when it rejects, the initialization routine fails with an
empty native-call trace, i.e. before any native filter object is
constructed. -/
theorem check_seccomp_accepts_iff (eng : Engine) (seccomp : LinuxSeccomp) :
    (check_seccomp seccomp = Except.ok () ↔
      (seccomp.default_action ≠ LinuxSeccompAction.ScmpActNotify ∧
        ∀ syscall ∈ seccomp.syscalls.getD [],
          syscall.action = LinuxSeccompAction.ScmpActNotify →
            "write" ∉ syscall.names)) ∧
    ((∃ e, check_seccomp seccomp = Except.error e) →
      (init_seccomp eng seccomp).1 = [] ∧
        ∃ e, (init_seccomp eng seccomp).2 = Except.error e) := by
  constructor
  · unfold check_seccomp
    split_ifs with h
    · simp [h]
    · rw [check_notify_write_ok_iff]
      simp [h]
  · rintro ⟨e, he⟩
    simp [init_seccomp, he]

theorem check_seccomp_accepts_iff_w :
    (init_seccomp engW polBadDefault).1 = [] ∧
      ∃ e, (init_seccomp engW polBadDefault).2 = Except.error e :=
  (check_seccomp_accepts_iff engW polBadDefault).2 ⟨SeccompError.notifyDefault, by decide⟩

theorem filterLoad_not_mem_flags (eng : Engine) (fs : List String) :
    Event.filterLoad ∉ (configure_flags eng fs).1 := by
  intro h
  simpa [Event.isCtl] using configure_flags_events eng fs _ h

theorem filterLoad_not_mem_archs (eng : Engine) (archs : List Arch) :
    Event.filterLoad ∉ (add_architectures eng archs).1 := by
  intro h
  simpa [Event.isAddArch] using add_architectures_events eng archs _ h

theorem filterLoad_not_mem_syscalls (eng : Engine) (default_action : ScmpAction)
    (l : List LinuxSyscall) :
    Event.filterLoad ∉ (compile_syscalls eng default_action l).1 := by
  intro h
  simpa [Event.isRuleAdd] using compile_syscalls_events eng default_action l _ h

/-- Claim C2: whenever `init_seccomp` succeeds, the returned value is
`some` handle exactly when the policy has a notify-action rule
(`is_notify`); if activation (the `filterLoad` call) happened, a
notify-using policy whose handle cannot be retrieved makes the whole
initialization fail, and a policy with no notify rule yields `none` with
no error. -/
theorem init_seccomp_notify_fd (eng : Engine) (seccomp : LinuxSeccomp) :
    (∀ r, (init_seccomp eng seccomp).2 = Except.ok r →
      r.isSome = is_notify seccomp) ∧
    (Event.filterLoad ∈ (init_seccomp eng seccomp).1 →
      is_notify seccomp = true → eng.get_notify_fd = none →
      (init_seccomp eng seccomp).2 = Except.error SeccompError.notifyFdFail) ∧
    (Event.filterLoad ∈ (init_seccomp eng seccomp).1 →
      is_notify seccomp = false →
      (init_seccomp eng seccomp).2 = Except.ok none) := by
  rcases hc : check_seccomp seccomp with e | u
  · simp [init_seccomp, hc]
  rcases ht : translate_action seccomp.default_action seccomp.default_errno_ret with e | da
  · simp [init_seccomp, hc, ht]
  cases hnf : eng.new_filter da
  · simp [init_seccomp, hc, ht, hnf]
  have h1 := filterLoad_not_mem_flags eng (seccomp.flags.getD [])
  rcases hf : (configure_flags eng (seccomp.flags.getD [])).2 with e | u2
  · simp [init_seccomp, hc, ht, hnf, hf, h1]
  have h2 := filterLoad_not_mem_archs eng (seccomp.architectures.getD [])
  rcases ha : (add_architectures eng (seccomp.architectures.getD [])).2 with e | u3
  · simp [init_seccomp, hc, ht, hnf, hf, ha, h1, h2]
  cases hnnp : eng.set_ctl_nnp
  · simp [init_seccomp, hc, ht, hnf, hf, ha, hnnp, h1, h2]
  have h3 := filterLoad_not_mem_syscalls eng da (seccomp.syscalls.getD [])
  rcases hs : (compile_syscalls eng da (seccomp.syscalls.getD [])).2 with e | u4
  · simp [init_seccomp, hc, ht, hnf, hf, ha, hnnp, hs, h1, h2, h3]
  cases hl : eng.filter_load
  · simp [init_seccomp, hc, ht, hnf, hf, ha, hnnp, hs, hl, h1, h2, h3]
  cases hn : is_notify seccomp
  · simp [init_seccomp, hc, ht, hnf, hf, ha, hnnp, hs, hl, hn]
  · rcases hfd : eng.get_notify_fd with _ | fd
    · simp [init_seccomp, hc, ht, hnf, hf, ha, hnnp, hs, hl, hn, hfd]
    · simp [init_seccomp, hc, ht, hnf, hf, ha, hnnp, hs, hl, hn, hfd]

theorem init_seccomp_notify_fd_w :
    (Option.some (3 : Int)).isSome = is_notify polNotify :=
  (init_seccomp_notify_fd engW polNotify).1 (some 3) (by decide)

theorem ctl_not_arch_rule (ev : Event) (h : ev.isCtl = true) :
    ev.isAddArch = false ∧ ev.isRuleAdd = false := by
  cases ev <;> simp_all [Event.isCtl, Event.isAddArch, Event.isRuleAdd]

/-- Claim C9: a policy whose flag list holds a token other than the three
recognized filter flags makes initialization fail, with a trace containing
no architecture registration and no rule addition; and when the engine
accepts the three controls, the filter is creatable and the validator
passes, the reported error names an offending (unrecognized) token of the
flag list. -/
theorem init_seccomp_unknown_flag (eng : Engine) (seccomp : LinuxSeccomp) (flag : String)
    (hmem : flag ∈ seccomp.flags.getD []) (hunk : ¬ recognized_flag flag) :
    (∃ e, (init_seccomp eng seccomp).2 = Except.error e) ∧
    (∀ ev ∈ (init_seccomp eng seccomp).1,
      ev.isAddArch = false ∧ ev.isRuleAdd = false) ∧
    (eng.set_ctl_log = true → eng.set_ctl_tsync = true → eng.set_ctl_ssb = true →
      (∃ default_action,
        translate_action seccomp.default_action seccomp.default_errno_ret =
          Except.ok default_action ∧ eng.new_filter default_action = true) →
      check_seccomp seccomp = Except.ok () →
      ∃ f2, f2 ∈ seccomp.flags.getD [] ∧ ¬ recognized_flag f2 ∧
        (init_seccomp eng seccomp).2 =
          Except.error (SeccompError.unsupportedFlag f2)) := by
  obtain ⟨e0, he0⟩ := configure_flags_error_of_unknown eng _ flag hmem hunk
  rcases hc : check_seccomp seccomp with e | u
  · refine ⟨⟨e, by simp [init_seccomp, hc]⟩, by simp [init_seccomp, hc], ?_⟩
    intro _ _ _ _ hcheck
    exact absurd hcheck (by simp)
  rcases ht : translate_action seccomp.default_action seccomp.default_errno_ret with e | da
  · refine ⟨⟨e, by simp [init_seccomp, hc, ht]⟩, by simp [init_seccomp, hc, ht], ?_⟩
    rintro _ _ _ ⟨da2, hta2, _⟩ _
    exact absurd hta2 (by simp)
  cases hnf : eng.new_filter da
  · refine ⟨⟨SeccompError.newFilterFail, by simp [init_seccomp, hc, ht, hnf]⟩,
      by simp [init_seccomp, hc, ht, hnf], ?_⟩
    rintro _ _ _ ⟨da2, hta2, hda2⟩ _
    rw [Except.ok.injEq] at hta2
    subst hta2
    exact absurd hda2 (by simp [hnf])
  refine ⟨⟨e0, by simp [init_seccomp, hc, ht, hnf, he0]⟩, ?_, ?_⟩
  · intro ev hev
    rw [init_seccomp] at hev
    simp only [hc, ht, hnf, he0, if_true] at hev
    simp at hev
    rcases hev with rfl | hm
    · exact ⟨rfl, rfl⟩
    · exact ctl_not_arch_rule ev (configure_flags_events eng _ ev hm)
  · intro hlog htsync hssb _ _
    obtain ⟨f2, hf2mem, hf2unk, heq2⟩ :=
      configure_flags_names_offender eng hlog htsync hssb _ flag hmem hunk
    exact ⟨f2, hf2mem, hf2unk, by simp [init_seccomp, hc, ht, hnf, heq2]⟩

theorem init_seccomp_unknown_flag_w :
    (∃ e, (init_seccomp engW polBadFlag).2 = Except.error e) ∧
    (∀ ev ∈ (init_seccomp engW polBadFlag).1,
      ev.isAddArch = false ∧ ev.isRuleAdd = false) ∧
    (engW.set_ctl_log = true → engW.set_ctl_tsync = true → engW.set_ctl_ssb = true →
      (∃ default_action,
        translate_action polBadFlag.default_action polBadFlag.default_errno_ret =
          Except.ok default_action ∧ engW.new_filter default_action = true) →
      check_seccomp polBadFlag = Except.ok () →
      ∃ f2, f2 ∈ polBadFlag.flags.getD [] ∧ ¬ recognized_flag f2 ∧
        (init_seccomp engW polBadFlag).2 =
          Except.error (SeccompError.unsupportedFlag f2)) :=
  init_seccomp_unknown_flag engW polBadFlag "SECCOMP_FILTER_FLAG_BOGUS"
    (by decide) (by decide)

end Seccomp
